import Mathlib

/-!
Shallow embedding of the Terraship validation orchestration and policy
compliance engine (Go sources under internal/core, internal/rules,
internal/cloud), together with theorems settling the specification claims.

Go-specific conventions used throughout:
- Go attribute maps (map[string]interface{}) are modelled as association
  lists (List (String × Value)); lookup returns the first binding.
- Go interface{} attribute values are modelled by the inductive Value.
- Go map iteration order is unspecified; wherever the source ranges over a
  map, the embedding either fixes the association-list order (noted at the
  definition) or takes the iteration order as an explicit argument.
- regexp.MatchString for the user-supplied naming pattern is an external
  call and is modelled as an explicit oracle argument of type
  String → String → Except String Bool (pattern, input ↦ error or match).
-/

set_option maxRecDepth 4000

namespace Terraship

/-- A dynamic attribute value (Go interface{} as produced by JSON/YAML
decoding): string, bool, integer, sequence or nested mapping. -/
inductive Value where
  | str : String → Value
  | bool : Bool → Value
  | int : Int → Value
  | list : List Value → Value
  | map : List (String × Value) → Value

/-- Go map[string]interface{} as an association list. -/
abbrev AttrMap := List (String × Value)

/-- Lookup in an association list standing for a Go map (first binding wins;
Go maps have unique keys so this is faithful). -/
def lookupA : AttrMap → String → Option Value
  | [], _ => none
  | (k, v) :: rest, key => if k = key then some v else lookupA rest key

/-- Lookup in a Go map[string]string. -/
def lookupS : List (String × String) → String → Option String
  | [], _ => none
  | (k, v) :: rest, key => if k = key then some v else lookupS rest key

/-- needle is a prefix of hay (character lists). -/
def isPrefixOfL : List Char → List Char → Bool
  | [], _ => true
  | _ :: _, [] => false
  | a :: as, b :: bs => a = b && isPrefixOfL as bs

/-- needle occurs contiguously inside hay (character lists). -/
def isInfixOfL (needle : List Char) : List Char → Bool
  | [] => isPrefixOfL needle []
  | b :: bs => isPrefixOfL needle (b :: bs) || isInfixOfL needle bs

/-- Go strings.Contains: needle occurs as a substring of hay. -/
def substrB (needle hay : String) : Bool :=
  isInfixOfL needle.toList hay.toList

/-- Go strings.Join(l, ", "). -/
def joinComma : List String → String
  | [] => ""
  | [s] => s
  | s :: rest => s ++ ", " ++ joinComma rest

mutual
/-- Go fmt.Sprint of a dynamic value.  Scalars print exactly as in Go;
for composite values Go prints "[e1 e2]" and "map[k1:v1 k2:v2]" (with map
keys in sorted order — here the association-list order stands in for it;
no claim evaluates Sprint on a composite value). -/
def sprint : Value → String
  | .str s => s
  | .bool b => cond b "true" "false"
  | .int n => toString n
  | .list vs => "[" ++ sprintList vs ++ "]"
  | .map kvs => "map[" ++ sprintMap kvs ++ "]"

def sprintList : List Value → String
  | [] => ""
  | [v] => sprint v
  | v :: rest => sprint v ++ " " ++ sprintList rest

def sprintMap : List (String × Value) → String
  | [] => ""
  | [kv] => kv.1 ++ ":" ++ sprint kv.2
  | kv :: rest => kv.1 ++ ":" ++ sprint kv.2 ++ " " ++ sprintMap rest
end

/-- internal/cloud ValidationResult: the outcome of one rule on one
resource. -/
structure ValidationResult where
  resourceID : String := ""
  ruleName : String := ""
  passed : Bool := true
  message : String := ""
  severity : String := ""
  remediation : String := ""
  details : List String := []
deriving DecidableEq, Repr

/-- internal/cloud ValidationRule: a policy rule.  Conditions is a Go
map[string]interface{} whose YAML declaration order is the association-list
order; Go iterates it in unspecified order (see EvaluateRule). -/
structure ValidationRule where
  name : String := ""
  description : String := ""
  severity : String := ""
  category : String := ""
  enabled : Bool := false
  resourceTypes : List String := []
  conditions : List (String × Value) := []
  message : String := ""
  remediation : String := ""

/-- internal/cloud ResourceStatus: live status / drift report for one
resource. -/
structure ResourceStatus where
  resourceID : String := ""
  resourceType : String := ""
  exists_ : Bool := false
  state : String := ""
  tags : List (String × String) := []
  properties : AttrMap := []
  driftDetected : Bool := false
  driftDetails : List String := []

/-! ## Rule engine (internal/rules/engine.go) -/

/-- One atom of the regular expression that matchResourceType builds:
a literal character, "." (any character), or ".*" (any sequence, produced
from "*" by strings.ReplaceAll(pattern, "*", ".*")). -/
inductive RegexTok where
  | lit : Char → RegexTok
  | anyChar : RegexTok
  | anyStar : RegexTok

/-- Translate a resource-type pattern to the atoms of the anchored regex
"^" ++ pattern.replaceAll("*", ".*") ++ "$" (faithful for patterns made of
literal characters, "." and "*", which is all the policy format uses). -/
def patternToks (pattern : String) : List RegexTok :=
  pattern.toList.map fun c =>
    if c = '*' then RegexTok.anyStar else if c = '.' then RegexTok.anyChar else RegexTok.lit c

/-- Anchored matcher for the translated regex.  The fuel argument only
bounds the recursion; every call decreases tokens + characters, so the
initial fuel in matchResourceType is never exhausted. -/
def regexMatchF : Nat → List RegexTok → List Char → Bool
  | 0, _, _ => false
  | _ + 1, [], cs => cs.isEmpty
  | fuel + 1, .lit c :: ts, cs =>
    match cs with
    | [] => false
    | d :: ds => c = d && regexMatchF fuel ts ds
  | fuel + 1, .anyChar :: ts, cs =>
    match cs with
    | [] => false
    | _ :: ds => regexMatchF fuel ts ds
  | fuel + 1, .anyStar :: ts, cs =>
    regexMatchF fuel ts cs ||
      match cs with
      | [] => false
      | _ :: ds => regexMatchF fuel (.anyStar :: ts) ds

/-- engine.go matchResourceType: anchored regex match of the resource type
against the pattern with "*" converted to ".*". -/
def matchResourceType (pattern resourceType : String) : Bool :=
  let toks := patternToks pattern
  regexMatchF (toks.length + resourceType.length + 1) toks resourceType.toList

/-- engine.go GetRulesForResource: the enabled rules, in policy order, that
apply to the resource type (a rule with no resource types applies to all). -/
def GetRulesForResource (policyRules : List ValidationRule) (resourceType : String) : List ValidationRule :=
  policyRules.filter fun rule =>
    rule.enabled &&
      (rule.resourceTypes.isEmpty ||
        rule.resourceTypes.any fun rt => matchResourceType rt resourceType)

/-- engine.go checkRequiredTags: every required tag key (printed with
fmt.Sprint) must exist under the resource's "tags" mapping; missing keys
are joined into one detail string. -/
def checkRequiredTags (expected : Value) (resource : AttrMap) : Bool × List String :=
  match expected with
  | .list requiredTags =>
    match lookupA resource "tags" with
    | some (.map tags) =>
      let missingTags := (requiredTags.map sprint).filter fun tagName => (lookupA tags tagName).isNone
      if missingTags.length > 0 then
        (false, ["Missing required tags: " ++ joinComma missingTags])
      else (true, [])
    | _ => (false, ["No tags found on resource"])
  | _ => (false, ["Invalid tags.required configuration"])

/-- A field value that is boolean true or a non-empty nested mapping (the
shared success test of the encryption and logging checkers). -/
def boolTrueOrNonemptyMap : Option Value → Bool
  | some (.bool b) => b
  | some (.map m) => !m.isEmpty
  | _ => false

def encryptionFields : List String :=
  ["encryption", "encrypted", "encryption_configuration",
   "server_side_encryption_configuration", "encryption_at_rest"]

/-- engine.go checkEncryptionEnabled: when the expected value is boolean
true, some encryption-indicator field must be boolean true or a non-empty
mapping; any other expected value passes unconditionally. -/
def checkEncryptionEnabled (expected : Value) (resource : AttrMap) : Bool × List String :=
  match expected with
  | .bool true =>
    if encryptionFields.any (fun field => boolTrueOrNonemptyMap (lookupA resource field)) then
      (true, [])
    else (false, ["Encryption is not enabled"])
  | _ => (true, [])

/-- The keys of the publicFields map in checkPublicAccessBlocked, in source
declaration order (Go ranges over the map in unspecified order; only which
detail is reported can differ, never the verdict on these claims). -/
def publicFields : List String :=
  ["public", "publicly_accessible", "public_access_enabled", "acl"]

def publicAccessLoop : List String → AttrMap → Bool × List String
  | [], _ => (true, [])
  | field :: rest, resource =>
    match lookupA resource field with
    | some (.bool true) =>
      (false, ["Resource has public access via \x27" ++ field ++ "\x27"])
    | some (.str s) =>
      if substrB "public" s.toLower then
        (false, ["Resource has public access via \x27" ++ field ++ "\x27: " ++ s])
      else publicAccessLoop rest resource
    | _ => publicAccessLoop rest resource

/-- engine.go checkPublicAccessBlocked: when the expected value is boolean
true, no public-access indicator field may be boolean true or a string
containing "public" (case-insensitively); otherwise passes. -/
def checkPublicAccessBlocked (expected : Value) (resource : AttrMap) : Bool × List String :=
  match expected with
  | .bool true => publicAccessLoop publicFields resource
  | _ => (true, [])

def versioningFields : List String :=
  ["versioning", "versioning_configuration", "version_enabled"]

/-- A field value that is boolean true or a mapping whose "enabled" entry is
boolean true (the success test of the versioning checker). -/
def versioningOk : Option Value → Bool
  | some (.bool b) => b
  | some (.map m) =>
    match lookupA m "enabled" with
    | some (.bool b) => b
    | _ => false
  | _ => false

/-- engine.go checkVersioningEnabled. -/
def checkVersioningEnabled (expected : Value) (resource : AttrMap) : Bool × List String :=
  match expected with
  | .bool true =>
    if versioningFields.any (fun field => versioningOk (lookupA resource field)) then
      (true, [])
    else (false, ["Versioning is not enabled"])
  | _ => (true, [])

def loggingFields : List String :=
  ["logging", "logging_configuration", "log_configuration", "enable_logging"]

/-- engine.go checkLoggingEnabled. -/
def checkLoggingEnabled (expected : Value) (resource : AttrMap) : Bool × List String :=
  match expected with
  | .bool true =>
    if loggingFields.any (fun field => boolTrueOrNonemptyMap (lookupA resource field)) then
      (true, [])
    else (false, ["Logging is not enabled"])
  | _ => (true, [])

def backupFields : List String :=
  ["backup", "backup_configuration", "backup_enabled", "backup_retention_period"]

/-- A field value that is boolean true, a positive integer, or a non-empty
mapping (the success test of the backup checker). -/
def backupOk : Option Value → Bool
  | some (.bool b) => b
  | some (.int n) => n > 0
  | some (.map m) => !m.isEmpty
  | _ => false

/-- engine.go checkBackupEnabled. -/
def checkBackupEnabled (expected : Value) (resource : AttrMap) : Bool × List String :=
  match expected with
  | .bool true =>
    if backupFields.any (fun field => backupOk (lookupA resource field)) then
      (true, [])
    else (false, ["Backup is not configured"])
  | _ => (true, [])

def nameFields : List String := ["name", "id", "resource_name"]

/-- The field loop of checkNamingPattern: the first name field present with
a string value is matched against the pattern via the regexp oracle; a
field that is absent, or present with a non-string value, is skipped, and
exhausting the list passes. -/
def namingLoop (rx : String → String → Except String Bool) (pattern : String) :
    List String → AttrMap → Bool × List String
  | [], _ => (true, [])
  | field :: rest, resource =>
    match lookupA resource field with
    | some (.str name) =>
      match rx pattern name with
      | .error e => (false, ["Invalid regex pattern: " ++ e])
      | .ok true => (true, [])
      | .ok false =>
        (false, ["Name \x27" ++ name ++ "\x27 does not match pattern \x27" ++ pattern ++ "\x27"])
    | _ => namingLoop rx pattern rest resource

/-- engine.go checkNamingPattern: a non-string expected value passes
unconditionally; otherwise the first string-valued name field is matched
against the pattern (rx models regexp.MatchString). -/
def checkNamingPattern (rx : String → String → Except String Bool)
    (expected : Value) (resource : AttrMap) : Bool × List String :=
  match expected with
  | .str pattern => namingLoop rx pattern nameFields resource
  | _ => (true, [])

def policyFields : List String := ["policy", "policy_document", "policy_arn"]

def leastPrivilegeLoop : List String → AttrMap → Bool × List String
  | [], _ => (true, [])
  | field :: rest, resource =>
    match lookupA resource field with
    | some (.str s) =>
      if substrB "*:*" s || substrB "\x22*\x22" s then
        (false, ["Policy contains wildcard permissions"])
      else leastPrivilegeLoop rest resource
    | _ => leastPrivilegeLoop rest resource

/-- engine.go checkLeastPrivilege: a string-valued policy field may not
contain a wildcard permission marker; the expected value is ignored. -/
def checkLeastPrivilege (_expected : Value) (resource : AttrMap) : Bool × List String :=
  leastPrivilegeLoop policyFields resource

/-- engine.go checkPrivateSubnet: when the expected value is boolean true,
a string-valued subnet_id may not contain "public"; otherwise passes. -/
def checkPrivateSubnet (expected : Value) (resource : AttrMap) : Bool × List String :=
  match expected with
  | .bool true =>
    match lookupA resource "subnet_id" with
    | some (.str s) =>
      if substrB "public" s then (false, ["Resource is in a public subnet"])
      else (true, [])
    | _ => (true, [])
  | _ => (true, [])

/-- The nested-path walk of engine.go checkProperty over the parts of the
dotted property path. -/
def checkPropertyParts (propertyPath : String) (expected : Value) :
    List String → AttrMap → Bool × List String
  | [], _ => (true, [])
  | [part], current =>
    match lookupA current part with
    | none => (false, ["Property \x27" ++ propertyPath ++ "\x27 not found"])
    | some value =>
      if sprint value ≠ sprint expected then
        (false, ["Property \x27" ++ propertyPath ++ "\x27 has value \x27" ++ sprint value ++
                 "\x27, expected \x27" ++ sprint expected ++ "\x27"])
      else (true, [])
  | part :: next :: rest, current =>
    match lookupA current part with
    | none => (false, ["Property \x27" ++ propertyPath ++ "\x27 not found"])
    | some (.map nested) => checkPropertyParts propertyPath expected (next :: rest) nested
    | some _ => (false, ["Cannot navigate property path \x27" ++ propertyPath ++ "\x27"])

/-- engine.go checkProperty: generic dotted-path lookup, comparing the leaf
value's fmt.Sprint form against the expected value's. -/
def checkProperty (propertyPath : String) (expected : Value) (resource : AttrMap) : Bool × List String :=
  checkPropertyParts propertyPath expected (propertyPath.splitOn ".") resource

/-- engine.go evaluateCondition: dispatch a condition key to its checker.
The result is (passed, detail strings appended to the ValidationResult). -/
def evaluateCondition (rx : String → String → Except String Bool)
    (condition : String) (expected : Value) (resource : AttrMap) : Bool × List String :=
  match condition with
  | "tags.required" => checkRequiredTags expected resource
  | "encryption.enabled" => checkEncryptionEnabled expected resource
  | "public_access.blocked" => checkPublicAccessBlocked expected resource
  | "versioning.enabled" => checkVersioningEnabled expected resource
  | "logging.enabled" => checkLoggingEnabled expected resource
  | "backup.enabled" => checkBackupEnabled expected resource
  | "naming.pattern" => checkNamingPattern rx expected resource
  | "iam.least_privilege" => checkLeastPrivilege expected resource
  | "network.private_subnet" => checkPrivateSubnet expected resource
  | _ => checkProperty condition expected resource

/-- The condition loop of EvaluateRule: conditions are evaluated in the
given iteration order, details accumulate, and evaluation stops at the
first failing condition (Go breaks out of the range loop). -/
def evalConditions (rx : String → String → Except String Bool) (resource : AttrMap) :
    List (String × Value) → Bool × List String
  | [] => (true, [])
  | (condition, expected) :: rest =>
    let r := evaluateCondition rx condition expected resource
    if r.1 then
      let rRest := evalConditions rx resource rest
      (rRest.1, r.2 ++ rRest.2)
    else (false, r.2)

/-- engine.go EvaluateRule.  Go ranges over the Conditions map, whose
iteration order is unspecified; condIterOrder is the order the range loop
happens to take (always a permutation of rule.conditions). -/
def EvaluateRule (rx : String → String → Except String Bool) (rule : ValidationRule)
    (condIterOrder : List (String × Value)) (resource : AttrMap) : ValidationResult :=
  let r := evalConditions rx resource condIterOrder
  { resourceID := ""
    ruleName := rule.name
    passed := r.1
    message := rule.message
    severity := rule.severity
    remediation := rule.remediation
    details := r.2 }

/-! ## Orchestrator (internal/core/validator.go) -/

/-- validator.go ValidationMode. -/
inductive ValidationMode where
  | validateExisting
  | ephemeralSandbox
deriving DecidableEq

/-- terraform/client.go Resource: one planned resource. -/
structure Resource where
  address : String := ""
  mode : String := ""
  type : String := ""
  name : String := ""
  providerName : String := ""
  schemaVersion : Int := 0
  values : AttrMap := []

/-- terraform/client.go Module: a module subtree of the plan. -/
inductive Module where
  | mk (resources : List Resource) (childModules : List Module) (address : String)

/-- validator.go ValidationReport: one resource's aggregate outcome. -/
structure ValidationReport where
  resourceAddress : String := ""
  resourceType : String := ""
  provider : String := ""
  status : String := "pass"
  ruleResults : List ValidationResult := []
  driftStatus : Option ResourceStatus := none
  errors : List String := []

/-- validator.go Summary. -/
structure Summary where
  totalResources : Nat := 0
  passedResources : Nat := 0
  failedResources : Nat := 0
  warningResources : Nat := 0
  errorResources : Nat := 0
  driftDetected : Nat := 0
  reports : List ValidationReport := []

mutual
/-- validator.go collectResources: depth-first pre-order flattening — a
module's own resources first, then each child module recursively. -/
def collectResources : Module → List Resource
  | .mk resources childModules _ => resources ++ collectResourcesList childModules

def collectResourcesList : List Module → List Resource
  | [] => []
  | m :: ms => collectResources m ++ collectResourcesList ms
end

/-- validator.go extractResourceID helper: a field value that is a
non-empty string. -/
def strAttr (values : AttrMap) (key : String) : Option String :=
  match lookupA values key with
  | some (.str s) => if s = "" then none else some s
  | _ => none

/-- validator.go extractResourceID: id, then name, then arn; "" if none. -/
def extractResourceID (values : AttrMap) : String :=
  match strAttr values "id" with
  | some s => s
  | none =>
    match strAttr values "name" with
    | some s => s
    | none =>
      match strAttr values "arn" with
      | some s => s
      | none => ""

/-- The per-rule status update inside validateResource: a failed result of
severity error forces "fail"; a failed warning-severity result raises a
non-"fail" status to "warning". -/
def ruleStatusStep (status : String) (result : ValidationResult) : String :=
  if !result.passed then
    if result.severity = "error" then "fail"
    else if result.severity = "warning" ∧ status ≠ "fail" then "warning"
    else status
  else status

/-- The ValidationResult the rules loop of validateResource records for one
rule: the engine result with ResourceID set to the resource address. -/
def mkRuleResult (rx : String → String → Except String Bool)
    (condIterOrder : ValidationRule → List (String × Value))
    (address : String) (values : AttrMap) (rule : ValidationRule) : ValidationResult :=
  { EvaluateRule rx rule (condIterOrder rule) values with resourceID := address }

/-- One iteration of the rules loop of validateResource: append the rule's
result and update the escalation status. -/
def evalRulesStep (rx : String → String → Except String Bool)
    (condIterOrder : ValidationRule → List (String × Value))
    (address : String) (values : AttrMap)
    (acc : List ValidationResult × String) (rule : ValidationRule) :
    List ValidationResult × String :=
  let result := mkRuleResult rx condIterOrder address values rule
  (acc.1 ++ [result], ruleStatusStep acc.2 result)

/-- The drift block of validateResource: in validate-existing mode with a
cloud adapter and an extractable resource ID, DetectDrift is called; a call
error is recorded on the report, a detected drift raises a "pass" status to
"warning". -/
def driftStage (detect : AttrMap → String → String → Except String ResourceStatus)
    (mode : ValidationMode) (hasAdapter : Bool)
    (resource : Resource) (base : ValidationReport) : ValidationReport :=
  if mode = .validateExisting ∧ hasAdapter then
    if extractResourceID resource.values ≠ "" then
      match detect resource.values resource.type (extractResourceID resource.values) with
      | .error e => { base with errors := base.errors ++ ["Drift detection failed: " ++ e] }
      | .ok driftStatus =>
        { base with
          driftStatus := some driftStatus
          status :=
            if driftStatus.driftDetected ∧ base.status = "pass" then "warning"
            else base.status }
    else base
  else base

/-- validator.go validateResource.  The terraform rules loop and the drift
branch; detect models cloudAdapter.DetectDrift (an outbound provider call),
condIterOrder models the Go map iteration order of each rule's conditions,
and hasAdapter models cloudAdapter != nil. -/
def validateResource (rx : String → String → Except String Bool)
    (condIterOrder : ValidationRule → List (String × Value))
    (detect : AttrMap → String → String → Except String ResourceStatus)
    (mode : ValidationMode) (hasAdapter : Bool)
    (policyRules : List ValidationRule) (resource : Resource) : ValidationReport :=
  let applicableRules := GetRulesForResource policyRules resource.type
  let evaluated := applicableRules.foldl
    (evalRulesStep rx condIterOrder resource.address resource.values)
    ([], "pass")
  driftStage detect mode hasAdapter resource
    { resourceAddress := resource.address
      resourceType := resource.type
      provider := resource.providerName
      status := evaluated.2
      ruleResults := evaluated.1
      driftStatus := none
      errors := [] }

/-- validator.go validateResources: fails when the plan carries no root
module, otherwise appends one report per flattened resource in traversal
order. -/
def validateResources (rx : String → String → Except String Bool)
    (condIterOrder : ValidationRule → List (String × Value))
    (detect : AttrMap → String → String → Except String ResourceStatus)
    (mode : ValidationMode) (hasAdapter : Bool)
    (policyRules : List ValidationRule)
    (rootModule : Option Module) : Except String (List ValidationReport) :=
  match rootModule with
  | none => .error "no resources found in plan"
  | some m =>
    .ok ((collectResources m).foldl
      (fun results resource =>
        results ++ [validateResource rx condIterOrder detect mode hasAdapter policyRules resource])
      [])

/-- Whether a report's recorded drift status detected drift. -/
def driftDetectedB : Option ResourceStatus → Bool
  | some d => d.driftDetected
  | none => false

/-- validator.go generateSummary. -/
def generateSummary (results : List ValidationReport) : Summary :=
  { totalResources := results.length
    passedResources := results.countP (fun r => r.status = "pass")
    failedResources := results.countP (fun r => r.status = "fail")
    warningResources := results.countP (fun r => r.status = "warning")
    errorResources := results.countP (fun r => r.status = "error")
    driftDetected := results.countP (fun r => driftDetectedB r.driftStatus)
    reports := results }

/-- The externally observable outcome of runEphemeralMode.  applyErr and
destroyErr are the outcomes the terraform Apply and Destroy subprocess
calls would produce; destroyWarnLogged records the only trace a destroy
failure leaves (a stderr warning, printed only when Verbose). -/
structure EphemeralOutcome where
  destroyAttempted : Bool
  destroyWarnLogged : Bool
  result : Option String

/-- validator.go runEphemeralMode: apply, then destroy unless NoDestroy
(even if apply failed); a destroy error is only logged (verbose) and the
returned error is the apply error, if any. -/
def runEphemeralMode (applyErr destroyErr : Option String)
    (noDestroy verbose : Bool) : EphemeralOutcome :=
  let destroyAttempted := !noDestroy
  let destroyWarnLogged := destroyAttempted && destroyErr.isSome && verbose
  match applyErr with
  | some e =>
    { destroyAttempted := destroyAttempted
      destroyWarnLogged := destroyWarnLogged
      result := some ("terraform apply failed: " ++ e) }
  | none =>
    { destroyAttempted := destroyAttempted
      destroyWarnLogged := destroyWarnLogged
      result := none }

/-- Steps 8 and 9 of validator.go Validate: in ephemeral mode a
runEphemeralMode error aborts the run (wrapped); otherwise the summary of
the accumulated reports is returned. -/
def finishValidate (results : List ValidationReport) (mode : ValidationMode)
    (applyErr destroyErr : Option String) (noDestroy verbose : Bool) :
    Except String Summary :=
  if mode = .ephemeralSandbox then
    match (runEphemeralMode applyErr destroyErr noDestroy verbose).result with
    | some e => .error ("ephemeral mode failed: " ++ e)
    | none => .ok (generateSummary results)
  else .ok (generateSummary results)

/-! ## Provider adapter (cloud/aws DetectDrift, part of src/unnamed) -/

/-- aws adapter DetectDrift.  The GetResourceStatus call it must make is
modelled by its outcome statusResult; when the live resource does not
exist the function returns immediately with DriftDetected and a single
absence detail, otherwise it compares the planned "tags" mapping against
the live tags (Go ranges over the planned map in unspecified order — the
association-list order stands in for it). -/
def DetectDrift (statusResult : Except String ResourceStatus)
    (plannedState : AttrMap) : Except String ResourceStatus :=
  match statusResult with
  | .error e => .error e
  | .ok actualStatus =>
    if !actualStatus.exists_ then
      .ok { actualStatus with
            driftDetected := true
            driftDetails := ["Resource does not exist in AWS"] }
    else
      let driftDetails :=
        match lookupA plannedState "tags" with
        | some (.map plannedTags) =>
          plannedTags.foldl
            (fun details kv =>
              match lookupS actualStatus.tags kv.1 with
              | none => details ++ ["Tag \x27" ++ kv.1 ++ "\x27 missing"]
              | some actualValue =>
                if sprint kv.2 ≠ actualValue then
                  details ++ ["Tag \x27" ++ kv.1 ++ "\x27 differs: planned=" ++
                              sprint kv.2 ++ ", actual=" ++ actualValue]
                else details)
            []
        | _ => []
      if driftDetails.length > 0 then
        .ok { actualStatus with driftDetected := true, driftDetails := driftDetails }
      else .ok actualStatus

/-! ## Helper lemmas -/

theorem perm_all {α : Type} {l1 l2 : List α} (p : α → Bool) (h : l1.Perm l2) :
    l1.all p = l2.all p := by
  induction h with
  | nil => rfl
  | cons x _ ih => simp [List.all_cons, ih]
  | swap x y l => simp only [List.all_cons]; rw [Bool.and_left_comm]
  | trans _ _ ih1 ih2 => rw [ih1, ih2]

theorem perm_any {α : Type} {l1 l2 : List α} (p : α → Bool) (h : l1.Perm l2) :
    l1.any p = l2.any p := by
  rcases e : l2.any p
  · simp only [List.any_eq_false] at e ⊢
    intro x hx
    exact e x (h.mem_iff.mp hx)
  · simp only [List.any_eq_true] at e ⊢
    obtain ⟨x, hx, hp⟩ := e
    exact ⟨x, h.mem_iff.mpr hx, hp⟩

theorem isPrefixOfL_iff (n h : List Char) : isPrefixOfL n h = true ↔ n <+: h := by
  induction n generalizing h with
  | nil => simp [isPrefixOfL]
  | cons a as ih =>
    cases h with
    | nil => simp [isPrefixOfL]
    | cons b bs =>
      simp only [isPrefixOfL, Bool.and_eq_true, decide_eq_true_eq, ih,
        List.cons_prefix_cons]

theorem isInfixOfL_iff (n h : List Char) : isInfixOfL n h = true ↔ n <:+: h := by
  induction h with
  | nil => simp [isInfixOfL, isPrefixOfL_iff, List.infix_nil]
  | cons b bs ih =>
    simp only [isInfixOfL, Bool.or_eq_true, isPrefixOfL_iff, ih, List.infix_cons_iff]

theorem substrB_append_left (needle s t : String) (h : substrB needle t = true) :
    substrB needle (s ++ t) = true := by
  rw [substrB, isInfixOfL_iff] at h ⊢
  have e : (s ++ t).toList = s.toList ++ t.toList := rfl
  rw [e]
  exact h.trans ((List.suffix_append s.toList t.toList).isInfix)

theorem substrB_self_append (a t : String) : substrB a (a ++ t) = true := by
  rw [substrB, isInfixOfL_iff]
  have e : (a ++ t).toList = a.toList ++ t.toList := rfl
  rw [e]
  exact (List.prefix_append a.toList t.toList).isInfix

theorem substrB_mem_joinComma (l : List String) (a : String) (h : a ∈ l) :
    substrB a (joinComma l) = true := by
  induction l with
  | nil => cases h
  | cons s rest ih =>
    rcases List.mem_cons.mp h with rfl | hmem
    · cases rest with
      | nil =>
        rw [substrB, isInfixOfL_iff, show joinComma [a] = a from rfl]
      | cons r rs =>
        rw [show joinComma (a :: r :: rs) = a ++ ", " ++ joinComma (r :: rs) from rfl,
          String.append_assoc]
        exact substrB_self_append a (", " ++ joinComma (r :: rs))
    · cases rest with
      | nil => cases hmem
      | cons r rs =>
        rw [show joinComma (s :: r :: rs) = s ++ ", " ++ joinComma (r :: rs) from rfl]
        exact substrB_append_left a (s ++ ", ") _ (ih hmem)

theorem evalConditions_fst (rx : String → String → Except String Bool)
    (resource : AttrMap) (conds : List (String × Value)) :
    (evalConditions rx resource conds).1 =
      conds.all (fun ce => (evaluateCondition rx ce.1 ce.2 resource).1) := by
  induction conds with
  | nil => rfl
  | cons ce rest ih =>
    obtain ⟨c, e⟩ := ce
    rcases hc : (evaluateCondition rx c e resource).1 <;>
      simp [evalConditions, hc, ih]

/-- A failed result of severity error. -/
def errFail (r : ValidationResult) : Bool := !r.passed && r.severity == "error"

/-- A failed result of severity warning. -/
def warnFail (r : ValidationResult) : Bool := !r.passed && r.severity == "warning"

/-- Modelled from the spec: the escalation rule of §4.2 as an
order-independent function of the rule results and the recorded drift
status, to be compared with the status validateResource computes. -/
def specStatus (results : List ValidationResult) (drift : Option ResourceStatus) : String :=
  if results.any errFail then "fail"
  else if results.any warnFail || driftDetectedB drift then "warning"
  else "pass"

theorem ruleStatusStep_fail (r : ValidationResult) : ruleStatusStep "fail" r = "fail" := by
  simp [ruleStatusStep]

theorem ruleStatusStep_warning (r : ValidationResult) :
    ruleStatusStep "warning" r = if errFail r then "fail" else "warning" := by
  rcases hp : r.passed <;>
    rcases he : r.severity == "error" <;>
      simp_all [ruleStatusStep, errFail, beq_iff_eq]

theorem ruleStatusStep_pass (r : ValidationResult) :
    ruleStatusStep "pass" r =
      if errFail r then "fail" else if warnFail r then "warning" else "pass" := by
  rcases hp : r.passed <;>
    rcases he : r.severity == "error" <;>
      rcases hw : r.severity == "warning" <;>
        simp_all [ruleStatusStep, errFail, warnFail, beq_iff_eq]

theorem foldl_status_fail (l : List ValidationResult) :
    l.foldl ruleStatusStep "fail" = "fail" := by
  induction l with
  | nil => rfl
  | cons r rest ih => rw [List.foldl_cons, ruleStatusStep_fail, ih]

theorem foldl_status_warning (l : List ValidationResult) :
    l.foldl ruleStatusStep "warning" = if l.any errFail then "fail" else "warning" := by
  induction l with
  | nil => rfl
  | cons r rest ih =>
    rw [List.foldl_cons, ruleStatusStep_warning]
    rcases he : errFail r
    · simpa [he] using ih
    · simp [he, foldl_status_fail]

theorem foldl_status_pass (l : List ValidationResult) :
    l.foldl ruleStatusStep "pass" =
      if l.any errFail then "fail"
      else if l.any warnFail then "warning" else "pass" := by
  induction l with
  | nil => rfl
  | cons r rest ih =>
    rw [List.foldl_cons, ruleStatusStep_pass]
    rcases he : errFail r
    · rcases hw : warnFail r
      · simpa [he, hw] using ih
      · simp [he, hw, foldl_status_warning]
    · simp [he, foldl_status_fail]

theorem foldl_evalRulesStep (rx : String → String → Except String Bool)
    (condIterOrder : ValidationRule → List (String × Value))
    (address : String) (values : AttrMap)
    (l : List ValidationRule) (acc : List ValidationResult) (st : String) :
    l.foldl (evalRulesStep rx condIterOrder address values) (acc, st) =
      (acc ++ l.map (mkRuleResult rx condIterOrder address values),
       (l.map (mkRuleResult rx condIterOrder address values)).foldl ruleStatusStep st) := by
  induction l generalizing acc st with
  | nil => simp
  | cons rule rest ih =>
    rw [List.foldl_cons, List.map_cons, List.foldl_cons]
    rw [show evalRulesStep rx condIterOrder address values (acc, st) rule =
        (acc ++ [mkRuleResult rx condIterOrder address values rule],
         ruleStatusStep st (mkRuleResult rx condIterOrder address values rule)) from rfl]
    rw [ih]
    simp

theorem foldl_status_pass_spec (l : List ValidationResult) :
    l.foldl ruleStatusStep "pass" = specStatus l none := by
  rw [foldl_status_pass, specStatus]
  rcases hE : l.any errFail <;> rcases hW : l.any warnFail <;>
    simp [hE, hW, driftDetectedB]

theorem driftStage_spec (detect : AttrMap → String → String → Except String ResourceStatus)
    (mode : ValidationMode) (hasAdapter : Bool)
    (resource : Resource) (base : ValidationReport)
    (hN : base.driftStatus = none)
    (h : base.status = specStatus base.ruleResults none) :
    (driftStage detect mode hasAdapter resource base).ruleResults = base.ruleResults ∧
    (driftStage detect mode hasAdapter resource base).status =
      specStatus base.ruleResults
        (driftStage detect mode hasAdapter resource base).driftStatus := by
  unfold driftStage
  split
  · split
    · split
      · refine ⟨rfl, ?_⟩
        show base.status = specStatus base.ruleResults base.driftStatus
        rw [hN]
        exact h
      · refine ⟨rfl, ?_⟩
        rename_i d _
        show (if d.driftDetected = true ∧ base.status = "pass" then "warning"
            else base.status) = specStatus base.ruleResults (some d)
        rw [h, specStatus, specStatus]
        rcases hE : base.ruleResults.any errFail <;>
          rcases hW : base.ruleResults.any warnFail <;>
            rcases hDd : d.driftDetected <;>
              simp [hE, hW, hDd, driftDetectedB]
    · refine ⟨rfl, ?_⟩
      show base.status = specStatus base.ruleResults base.driftStatus
      rw [hN]
      exact h
  · refine ⟨rfl, ?_⟩
    show base.status = specStatus base.ruleResults base.driftStatus
    rw [hN]
    exact h

/-- The rule results and status of validateResource: the results are the
engine results of the applicable rules in policy order, and the status is
exactly the §4.2 escalation over them together with the recorded drift
status. -/
theorem validateResource_spec (rx : String → String → Except String Bool)
    (condIterOrder : ValidationRule → List (String × Value))
    (detect : AttrMap → String → String → Except String ResourceStatus)
    (mode : ValidationMode) (hasAdapter : Bool)
    (policyRules : List ValidationRule) (resource : Resource) :
    (validateResource rx condIterOrder detect mode hasAdapter policyRules resource).ruleResults =
      (GetRulesForResource policyRules resource.type).map
        (mkRuleResult rx condIterOrder resource.address resource.values) ∧
    (validateResource rx condIterOrder detect mode hasAdapter policyRules resource).status =
      specStatus
        ((GetRulesForResource policyRules resource.type).map
          (mkRuleResult rx condIterOrder resource.address resource.values))
        (validateResource rx condIterOrder detect mode hasAdapter policyRules resource).driftStatus := by
  simp only [validateResource, foldl_evalRulesStep, List.nil_append]
  exact driftStage_spec detect mode hasAdapter resource _ rfl (foldl_status_pass_spec _)

theorem foldl_append_singleton {α β : Type} (f : α → β) (l : List α) (acc : List β) :
    l.foldl (fun rs r => rs ++ [f r]) acc = acc ++ l.map f := by
  induction l generalizing acc with
  | nil => simp
  | cons r rest ih => simp [ih]

/-- A trivial regexp oracle used to instantiate concrete evaluations (the
claims it appears in never reach a regex match). -/
def rxConst : String → String → Except String Bool := fun _ _ => .ok true

/-- The condition scheduler that iterates each rule's conditions in their
declared order. -/
def declaredOrder : ValidationRule → List (String × Value) := fun rule => rule.conditions

/-- A drift oracle that always reports a live, drift-free resource. -/
def detectOk : AttrMap → String → String → Except String ResourceStatus :=
  fun _ _ _ => .ok { exists_ := true }

/-! ## Claims -/

/-- C1: in ephemeral-sandbox mode with the no-destroy override unset,
destroy is attempted for every outcome of apply (success or failure), and
when apply failed the error the run returns is the wrapped apply failure —
a destroy failure (destroyErr arbitrary) never masks it. -/
theorem ephemeral_cleanup_invariant (results : List ValidationReport)
    (destroyErr : Option String) (e : String) (verbose : Bool) :
    (runEphemeralMode (some e) destroyErr false verbose).destroyAttempted = true ∧
    (runEphemeralMode none destroyErr false verbose).destroyAttempted = true ∧
    (runEphemeralMode (some e) destroyErr false verbose).result =
      some ("terraform apply failed: " ++ e) ∧
    (runEphemeralMode none destroyErr false verbose).result = none ∧
    finishValidate results .ephemeralSandbox (some e) destroyErr false verbose =
      .error ("ephemeral mode failed: terraform apply failed: " ++ e) := by
  refine ⟨rfl, rfl, rfl, rfl, ?_⟩
  simp only [finishValidate, runEphemeralMode]
  rw [← String.append_assoc,
    show ("ephemeral mode failed: " ++ "terraform apply failed: " : String) =
      "ephemeral mode failed: terraform apply failed: " from rfl]
  simp

/-- C1 witness: the ephemeral cleanup invariant instantiated at a failing
apply and a failing destroy. -/
theorem ephemeral_cleanup_invariant_witness :
    (runEphemeralMode (some "boom") (some "destroy also failed") false false).result =
      some ("terraform apply failed: " ++ "boom") :=
  (ephemeral_cleanup_invariant [] (some "destroy also failed") "boom" false).2.2.1

/-- C2 counterexample: apply succeeded and the subsequent destroy failed,
yet runEphemeralMode reports success, the run returns the summary
unchanged, and (verbose unset) not even the stderr warning is emitted: the
destroy failure reaches neither the Summary nor the returned error. -/
theorem ephemeral_destroy_failure_dropped_cex :
    (runEphemeralMode none (some "terraform destroy failed") false false).result = none ∧
    (runEphemeralMode none (some "terraform destroy failed") false false).destroyWarnLogged
      = false ∧
    finishValidate [] .ephemeralSandbox none (some "terraform destroy failed") false false =
      .ok (generateSummary []) := by
  refine ⟨rfl, rfl, ?_⟩
  simp [finishValidate, runEphemeralMode]

/-- C2 amended: when apply succeeds and destroy fails in ephemeral mode,
the run still returns the summary with no error; the destroy failure is
not recorded anywhere in the returned data and leaves only a stderr
warning, emitted only when verbose is set. -/
theorem ephemeral_destroy_failure_only_logged (results : List ValidationReport)
    (e : String) (verbose : Bool) :
    (runEphemeralMode none (some e) false verbose).result = none ∧
    (runEphemeralMode none (some e) false verbose).destroyAttempted = true ∧
    (runEphemeralMode none (some e) false verbose).destroyWarnLogged = verbose ∧
    finishValidate results .ephemeralSandbox none (some e) false verbose =
      .ok (generateSummary results) := by
  refine ⟨rfl, rfl, ?_, ?_⟩
  · simp [runEphemeralMode]
  · simp [finishValidate, runEphemeralMode]

/-- C2 witness: with verbose set, the destroy failure after a successful
apply is logged to stderr but still absent from the returned result. -/
theorem ephemeral_destroy_failure_only_logged_witness :
    (runEphemeralMode none (some "destroy failed late") false true).destroyWarnLogged = true :=
  (ephemeral_destroy_failure_only_logged [] "destroy failed late" true).2.2.1

/-- C3: a report's Status is exactly the order-independent escalation of
its own rule results and recorded drift status: "fail" iff some failed
result has severity error; otherwise "warning" iff some failed result has
severity warning or drift was detected; otherwise "pass".  In particular
it is never "pass" when an error-severity result failed and never "fail"
without one. -/
theorem report_status_escalation (rx : String → String → Except String Bool)
    (condIterOrder : ValidationRule → List (String × Value))
    (detect : AttrMap → String → String → Except String ResourceStatus)
    (mode : ValidationMode) (hasAdapter : Bool)
    (policyRules : List ValidationRule) (resource : Resource) :
    (validateResource rx condIterOrder detect mode hasAdapter policyRules resource).status =
      specStatus
        (validateResource rx condIterOrder detect mode hasAdapter policyRules resource).ruleResults
        (validateResource rx condIterOrder detect mode hasAdapter policyRules resource).driftStatus ∧
    (∀ l, l.Perm (validateResource rx condIterOrder detect mode hasAdapter
        policyRules resource).ruleResults →
      specStatus l
          (validateResource rx condIterOrder detect mode hasAdapter
            policyRules resource).driftStatus =
        (validateResource rx condIterOrder detect mode hasAdapter policyRules resource).status) ∧
    ((validateResource rx condIterOrder detect mode hasAdapter policyRules resource).status
        = "fail" ↔
      (validateResource rx condIterOrder detect mode hasAdapter
        policyRules resource).ruleResults.any errFail = true) ∧
    ((validateResource rx condIterOrder detect mode hasAdapter policyRules resource).status
        = "warning" ↔
      ((validateResource rx condIterOrder detect mode hasAdapter
          policyRules resource).ruleResults.any errFail = false ∧
        ((validateResource rx condIterOrder detect mode hasAdapter
            policyRules resource).ruleResults.any warnFail ||
          driftDetectedB (validateResource rx condIterOrder detect mode hasAdapter
            policyRules resource).driftStatus) = true)) ∧
    ((validateResource rx condIterOrder detect mode hasAdapter policyRules resource).status
        = "pass" ↔
      ((validateResource rx condIterOrder detect mode hasAdapter
          policyRules resource).ruleResults.any errFail = false ∧
        ((validateResource rx condIterOrder detect mode hasAdapter
            policyRules resource).ruleResults.any warnFail ||
          driftDetectedB (validateResource rx condIterOrder detect mode hasAdapter
            policyRules resource).driftStatus) = false)) := by
  obtain ⟨hR, hS⟩ :=
    validateResource_spec rx condIterOrder detect mode hasAdapter policyRules resource
  rw [← hR] at hS
  refine ⟨hS, ?_, ?_, ?_, ?_⟩
  · intro l hperm
    rw [hS, specStatus, specStatus, perm_any errFail hperm, perm_any warnFail hperm]
  · rw [hS, specStatus]
    rcases hE : (validateResource rx condIterOrder detect mode hasAdapter
        policyRules resource).ruleResults.any errFail <;>
      rcases hW : ((validateResource rx condIterOrder detect mode hasAdapter
          policyRules resource).ruleResults.any warnFail ||
        driftDetectedB (validateResource rx condIterOrder detect mode hasAdapter
          policyRules resource).driftStatus) <;>
        simp [hE, hW]
  · rw [hS, specStatus]
    rcases hE : (validateResource rx condIterOrder detect mode hasAdapter
        policyRules resource).ruleResults.any errFail <;>
      rcases hW : ((validateResource rx condIterOrder detect mode hasAdapter
          policyRules resource).ruleResults.any warnFail ||
        driftDetectedB (validateResource rx condIterOrder detect mode hasAdapter
          policyRules resource).driftStatus) <;>
        simp [hE, hW]
  · rw [hS, specStatus]
    rcases hE : (validateResource rx condIterOrder detect mode hasAdapter
        policyRules resource).ruleResults.any errFail <;>
      rcases hW : ((validateResource rx condIterOrder detect mode hasAdapter
          policyRules resource).ruleResults.any warnFail ||
        driftDetectedB (validateResource rx condIterOrder detect mode hasAdapter
          policyRules resource).driftStatus) <;>
        simp [hE, hW]

/-- A concrete resource used to instantiate the C3 escalation theorem. -/
def witnessResource : Resource := { address := "aws_s3_bucket.w", type := "aws_s3_bucket" }

/-- C3 witness: the escalation equality instantiated at a concrete
resource, mode and policy. -/
theorem report_status_escalation_witness :
    (validateResource rxConst declaredOrder detectOk .ephemeralSandbox false []
      witnessResource).status =
      specStatus
        (validateResource rxConst declaredOrder detectOk .ephemeralSandbox false []
          witnessResource).ruleResults
        (validateResource rxConst declaredOrder detectOk .ephemeralSandbox false []
          witnessResource).driftStatus :=
  (report_status_escalation rxConst declaredOrder detectOk .ephemeralSandbox false []
    witnessResource).1

/-- A rule with two conditions that both fail on an empty resource, used to
exhibit the order-dependence of the Details EvaluateRule produces. -/
def twoCondRule : ValidationRule :=
  { name := "two-conditions"
    severity := "error"
    enabled := true
    resourceTypes := []
    conditions := [("encryption.enabled", Value.bool true),
                   ("versioning.enabled", Value.bool true)]
    message := "m" }

/-- C4 counterexample: both iteration orders below are permutations of the
rule's declared conditions — so both are orders the Go Conditions map range
loop can take — yet EvaluateRule returns different ValidationResults
(different Details) for the identical (Rule, attributes) pair: conditions
are not evaluated in declared order and the result is not unique. -/
theorem evaluateRule_order_dependent_cex :
    twoCondRule.conditions.reverse.Perm twoCondRule.conditions ∧
    EvaluateRule rxConst twoCondRule twoCondRule.conditions [] ≠
      EvaluateRule rxConst twoCondRule twoCondRule.conditions.reverse [] ∧
    (EvaluateRule rxConst twoCondRule twoCondRule.conditions []).details =
      ["Encryption is not enabled"] ∧
    (EvaluateRule rxConst twoCondRule twoCondRule.conditions.reverse []).details =
      ["Versioning is not enabled"] := by
  refine ⟨List.reverse_perm _, ?_, rfl, rfl⟩
  decide

/-- C4 amended: every field of EvaluateRule's result except Details is
deterministic and independent of the Conditions map iteration order — in
particular Passed is the conjunction of all conditions — but because Go
iterates the Conditions map in unspecified order and short-circuits at the
first failure in that order, the Details of two evaluations of the
identical (Rule, attributes) pair may differ; the declared condition order
is not preserved. -/
theorem evaluateRule_passed_deterministic (rx : String → String → Except String Bool)
    (rule : ValidationRule) (o1 o2 : List (String × Value)) (resource : AttrMap)
    (h1 : o1.Perm rule.conditions) (h2 : o2.Perm rule.conditions) :
    (EvaluateRule rx rule o1 resource).passed = (EvaluateRule rx rule o2 resource).passed ∧
    (EvaluateRule rx rule o1 resource).passed =
      rule.conditions.all (fun ce => (evaluateCondition rx ce.1 ce.2 resource).1) ∧
    (EvaluateRule rx rule o1 resource).severity = rule.severity ∧
    (EvaluateRule rx rule o1 resource).ruleName = rule.name ∧
    (EvaluateRule rx rule o1 resource).message = rule.message := by
  have e1 : (EvaluateRule rx rule o1 resource).passed = (evalConditions rx resource o1).1 := rfl
  have e2 : (EvaluateRule rx rule o2 resource).passed = (evalConditions rx resource o2).1 := rfl
  have p1 := evalConditions_fst rx resource o1
  have p2 := evalConditions_fst rx resource o2
  have q1 := perm_all (fun ce => (evaluateCondition rx ce.1 ce.2 resource).1) h1
  have q2 := perm_all (fun ce => (evaluateCondition rx ce.1 ce.2 resource).1) h2
  refine ⟨?_, ?_, rfl, rfl, rfl⟩
  · rw [e1, e2, p1, p2, q1, q2]
  · rw [e1, p1, q1]

/-- C4 witness: the determinism of Passed applied at a concrete rule, the
declared order and its reverse, and a concrete resource. -/
theorem evaluateRule_passed_deterministic_witness :
    (EvaluateRule rxConst twoCondRule twoCondRule.conditions []).passed =
      (EvaluateRule rxConst twoCondRule twoCondRule.conditions.reverse []).passed :=
  (evaluateRule_passed_deterministic rxConst twoCondRule twoCondRule.conditions
    twoCondRule.conditions.reverse [] (List.Perm.refl _) (List.reverse_perm _)).1

/-- A rule whose single condition is naming.pattern, used to show absence
of every name field yields a passing ValidationResult. -/
def namingRule : ValidationRule :=
  { name := "naming"
    severity := "error"
    enabled := true
    conditions := [("naming.pattern", Value.str "^app-")]
    message := "m" }

/-- C5 counterexample: on a resource with no attributes at all (so the
subject fields are entirely absent), naming.pattern, iam.least_privilege
and network.private_subnet all pass with no detail — absence is treated as
success for these three checkers, not as failure. -/
theorem absent_field_checkers_pass_cex :
    (EvaluateRule rxConst namingRule namingRule.conditions []).passed = true ∧
    (EvaluateRule rxConst namingRule namingRule.conditions []).details = [] ∧
    checkNamingPattern rxConst (Value.str "^app-") [] = (true, []) ∧
    checkLeastPrivilege (Value.bool true) [] = (true, []) ∧
    checkPrivateSubnet (Value.bool true) [] = (true, []) :=
  ⟨rfl, rfl, rfl, rfl, rfl⟩

/-- C5 amended: absence of the subject field is a failure with an
explanatory detail for tags.required, encryption.enabled,
versioning.enabled, logging.enabled, backup.enabled and the generic
dotted-path checker, but naming.pattern, iam.least_privilege and
network.private_subnet pass, with no detail, when their subject fields are
entirely absent from the resource's attributes. -/
theorem absence_behavior_by_checker (res : AttrMap)
    (rx : String → String → Except String Bool) (pat : String)
    (tagList : List Value) (expected : Value) (path part0 : String) (parts : List String) :
    (lookupA res "tags" = none →
      checkRequiredTags (Value.list tagList) res = (false, ["No tags found on resource"])) ∧
    ((∀ f ∈ encryptionFields, lookupA res f = none) →
      checkEncryptionEnabled (Value.bool true) res = (false, ["Encryption is not enabled"])) ∧
    ((∀ f ∈ versioningFields, lookupA res f = none) →
      checkVersioningEnabled (Value.bool true) res = (false, ["Versioning is not enabled"])) ∧
    ((∀ f ∈ loggingFields, lookupA res f = none) →
      checkLoggingEnabled (Value.bool true) res = (false, ["Logging is not enabled"])) ∧
    ((∀ f ∈ backupFields, lookupA res f = none) →
      checkBackupEnabled (Value.bool true) res = (false, ["Backup is not configured"])) ∧
    (path.splitOn "." = part0 :: parts → lookupA res part0 = none →
      checkProperty path expected res =
        (false, ["Property \x27" ++ path ++ "\x27 not found"])) ∧
    ((∀ f ∈ nameFields, lookupA res f = none) →
      checkNamingPattern rx (Value.str pat) res = (true, [])) ∧
    ((∀ f ∈ policyFields, lookupA res f = none) →
      checkLeastPrivilege (Value.bool true) res = (true, [])) ∧
    (lookupA res "subnet_id" = none →
      checkPrivateSubnet (Value.bool true) res = (true, [])) := by
  refine ⟨?_, ?_, ?_, ?_, ?_, ?_, ?_, ?_, ?_⟩
  · intro h
    simp [checkRequiredTags, h]
  · intro h
    have h1 := h "encryption" (by simp [encryptionFields])
    have h2 := h "encrypted" (by simp [encryptionFields])
    have h3 := h "encryption_configuration" (by simp [encryptionFields])
    have h4 := h "server_side_encryption_configuration" (by simp [encryptionFields])
    have h5 := h "encryption_at_rest" (by simp [encryptionFields])
    simp [checkEncryptionEnabled, encryptionFields, h1, h2, h3, h4, h5, boolTrueOrNonemptyMap]
  · intro h
    have h1 := h "versioning" (by simp [versioningFields])
    have h2 := h "versioning_configuration" (by simp [versioningFields])
    have h3 := h "version_enabled" (by simp [versioningFields])
    simp [checkVersioningEnabled, versioningFields, h1, h2, h3, versioningOk]
  · intro h
    have h1 := h "logging" (by simp [loggingFields])
    have h2 := h "logging_configuration" (by simp [loggingFields])
    have h3 := h "log_configuration" (by simp [loggingFields])
    have h4 := h "enable_logging" (by simp [loggingFields])
    simp [checkLoggingEnabled, loggingFields, h1, h2, h3, h4, boolTrueOrNonemptyMap]
  · intro h
    have h1 := h "backup" (by simp [backupFields])
    have h2 := h "backup_configuration" (by simp [backupFields])
    have h3 := h "backup_enabled" (by simp [backupFields])
    have h4 := h "backup_retention_period" (by simp [backupFields])
    simp [checkBackupEnabled, backupFields, h1, h2, h3, h4, backupOk]
  · intro hsplit hnone
    rw [checkProperty, hsplit]
    cases parts with
    | nil => simp [checkPropertyParts, hnone]
    | cons p ps => simp [checkPropertyParts, hnone]
  · intro h
    have h1 := h "name" (by simp [nameFields])
    have h2 := h "id" (by simp [nameFields])
    have h3 := h "resource_name" (by simp [nameFields])
    simp [checkNamingPattern, nameFields, namingLoop, h1, h2, h3]
  · intro h
    have h1 := h "policy" (by simp [policyFields])
    have h2 := h "policy_document" (by simp [policyFields])
    have h3 := h "policy_arn" (by simp [policyFields])
    simp [checkLeastPrivilege, policyFields, leastPrivilegeLoop, h1, h2, h3]
  · intro h
    simp [checkPrivateSubnet, h]

/-- C5 witness: the absence behavior applied at the empty resource. -/
theorem absence_behavior_by_checker_witness :
    checkRequiredTags (Value.list [Value.str "Owner"]) [] =
      (false, ["No tags found on resource"]) ∧
    checkEncryptionEnabled (Value.bool true) [] = (false, ["Encryption is not enabled"]) :=
  ⟨(absence_behavior_by_checker [] rxConst "p" [Value.str "Owner"]
      (Value.bool true) "a" "a" []).1 rfl,
   (absence_behavior_by_checker [] rxConst "p" [Value.str "Owner"]
      (Value.bool true) "a" "a" []).2.1 (fun _ _ => rfl)⟩

/-- C6: GetRulesForResource returns exactly the enabled rules, as a sublist
of the policy's rules (policy-declared order, no duplication), that apply
to the resource type: no patterns means the rule applies to every type,
otherwise some pattern must match the whole type string, case-sensitively,
with "*" as an anchored wildcard — "provider_" followed by a wildcard
matches "provider_bucket" and "provider_instance" but not
"otherprovider_bucket", not a different capitalization, and a pattern
without wildcard matches no proper superstring. -/
theorem getRulesForResource_spec (policyRules : List ValidationRule) (rt : String) :
    (GetRulesForResource policyRules rt).Sublist policyRules ∧
    (∀ rule, rule ∈ GetRulesForResource policyRules rt ↔
      (rule ∈ policyRules ∧ rule.enabled = true ∧
        (rule.resourceTypes = [] ∨
          ∃ p ∈ rule.resourceTypes, matchResourceType p rt = true))) ∧
    matchResourceType "provider_*" "provider_bucket" = true ∧
    matchResourceType "provider_*" "provider_instance" = true ∧
    matchResourceType "provider_*" "otherprovider_bucket" = false ∧
    matchResourceType "Provider_*" "provider_bucket" = false ∧
    matchResourceType "provider" "provider_bucket" = false := by
  refine ⟨List.filter_sublist _, ?_, by decide, by decide, by decide, by decide, by decide⟩
  intro rule
  rw [GetRulesForResource, List.mem_filter]
  simp [List.isEmpty_iff, List.any_eq_true]

/-- C6 witness: the wildcard conjunct extracted from the rule-applicability
theorem. -/
theorem getRulesForResource_spec_witness :
    matchResourceType "provider_*" "provider_bucket" = true :=
  (getRulesForResource_spec [] "x").2.2.1

/-- The required-tags scenario rule of the spec (§8). -/
def reqTagsRule : ValidationRule :=
  { name := "required-tags"
    severity := "error"
    enabled := true
    resourceTypes := ["aws_*"]
    conditions := [("tags.required",
      Value.list [Value.str "Environment", Value.str "Owner"])]
    message := "Required tags missing" }

/-- The scenario resource carrying only the tag Environment: "prod". -/
def scenRes : AttrMap := [("tags", Value.map [("Environment", Value.str "prod")])]

/-- C7: tags.required passes iff every listed tag key exists in the
resource's tags mapping; every missing key is named (as a substring) in a
detail; a resource with no tags key at all fails with its own detail
rather than being skipped; and in the spec's scenario (required
Environment and Owner, tags carrying only Environment) the result fails
with a detail naming Owner. -/
theorem requiredTags_spec (tagsMap : List (String × Value)) (req : List Value) (res : AttrMap)
    (h : lookupA res "tags" = some (Value.map tagsMap)) :
    ((checkRequiredTags (Value.list req) res).1 = true ↔
      ∀ t ∈ req, (lookupA tagsMap (sprint t)).isSome = true) ∧
    (∀ t ∈ req, lookupA tagsMap (sprint t) = none →
      ∃ d ∈ (checkRequiredTags (Value.list req) res).2, substrB (sprint t) d = true) ∧
    (∀ res2, lookupA res2 "tags" = none →
      checkRequiredTags (Value.list req) res2 = (false, ["No tags found on resource"])) ∧
    (EvaluateRule rxConst reqTagsRule reqTagsRule.conditions scenRes).passed = false ∧
    (∃ d ∈ (EvaluateRule rxConst reqTagsRule reqTagsRule.conditions scenRes).details,
      substrB "Owner" d = true) := by
  have hEq : checkRequiredTags (Value.list req) res =
      (if ((req.map sprint).filter fun n => (lookupA tagsMap n).isNone) = [] then (true, [])
       else (false, ["Missing required tags: " ++
         joinComma ((req.map sprint).filter fun n => (lookupA tagsMap n).isNone)])) := by
    by_cases hm : ((req.map sprint).filter fun n => (lookupA tagsMap n).isNone) = []
    · simp [checkRequiredTags, h, hm]
    · simp [checkRequiredTags, h, hm, List.length_pos.mpr hm]
  have key : ((req.map sprint).filter fun n => (lookupA tagsMap n).isNone) = [] ↔
      (∀ t ∈ req, (lookupA tagsMap (sprint t)).isSome = true) := by
    rw [List.filter_eq_nil_iff]
    constructor
    · intro hh t ht
      have h2 := hh (sprint t) (List.mem_map_of_mem _ ht)
      rw [Bool.not_eq_true, Option.isNone_eq_false_iff] at h2
      exact h2
    · intro hh n hn
      obtain ⟨t, ht, rfl⟩ := List.mem_map.mp hn
      rw [Bool.not_eq_true, Option.isNone_eq_false_iff]
      exact hh t ht
  refine ⟨?_, ?_, ?_, ?_, ?_⟩
  · rw [← key, hEq]
    by_cases hm : ((req.map sprint).filter fun n => (lookupA tagsMap n).isNone) = [] <;>
      simp [hm]
  · intro t ht hnone
    have hmem : sprint t ∈ (req.map sprint).filter fun n => (lookupA tagsMap n).isNone :=
      List.mem_filter.mpr ⟨List.mem_map_of_mem _ ht, by simp [hnone]⟩
    have hne : ((req.map sprint).filter fun n => (lookupA tagsMap n).isNone) ≠ [] :=
      List.ne_nil_of_mem hmem
    refine ⟨"Missing required tags: " ++
      joinComma ((req.map sprint).filter fun n => (lookupA tagsMap n).isNone), ?_, ?_⟩
    · rw [hEq]
      simp [hne]
    · exact substrB_append_left _ _ _ (substrB_mem_joinComma _ _ hmem)
  · intro res2 h2
    simp [checkRequiredTags, h2]
  · decide
  · decide

/-- C7 witness: the scenario conjunct extracted by applying the theorem at
the scenario's tags mapping and required-tags list. -/
theorem requiredTags_spec_witness :
    (EvaluateRule rxConst reqTagsRule reqTagsRule.conditions scenRes).passed = false :=
  (requiredTags_spec [("Environment", Value.str "prod")]
    [Value.str "Environment", Value.str "Owner"] scenRes rfl).2.2.2.1

/-- C8: when the live resource does not exist (GetResourceStatus returned
successfully with Exists = false), DetectDrift reports Exists = false,
DriftDetected = true and exactly one detail entry noting the absence, and
the planned attributes are never consulted — the result is identical for
every plannedState. -/
theorem detectDrift_absent_resource (actual : ResourceStatus) (planned planned2 : AttrMap)
    (h : actual.exists_ = false) :
    DetectDrift (.ok actual) planned =
      .ok { actual with
            driftDetected := true
            driftDetails := ["Resource does not exist in AWS"] } ∧
    (DetectDrift (.ok actual) planned).map (fun s => s.exists_) = .ok false ∧
    (DetectDrift (.ok actual) planned).map (fun s => s.driftDetected) = .ok true ∧
    (DetectDrift (.ok actual) planned).map (fun s => s.driftDetails.length) = .ok 1 ∧
    DetectDrift (.ok actual) planned = DetectDrift (.ok actual) planned2 := by
  refine ⟨?_, ?_, ?_, ?_, ?_⟩ <;> simp [DetectDrift, Except.map, h]

/-- The concrete absent-resource status used to instantiate C8. -/
def statusAbsent : ResourceStatus := { resourceID := "i-123", resourceType := "aws_instance" }

/-- C8 witness: the independence from the planned attributes, instantiated
at a concrete absent resource and two different planned states. -/
theorem detectDrift_absent_resource_witness :
    DetectDrift (.ok statusAbsent) [("tags", Value.map [("Env", Value.str "prod")])] =
      DetectDrift (.ok statusAbsent) [] :=
  (detectDrift_absent_resource statusAbsent
    [("tags", Value.map [("Env", Value.str "prod")])] [] rfl).2.2.2.2

/-- C9: a run produces exactly one ValidationReport per resource of the
depth-first flattened plan, in traversal order; Summary.TotalResources
equals the number of reports; and every report's Status is the value the
§4.2 escalation derives from its own rule results and drift status. -/
theorem one_report_per_resource (rx : String → String → Except String Bool)
    (condIterOrder : ValidationRule → List (String × Value))
    (detect : AttrMap → String → String → Except String ResourceStatus)
    (mode : ValidationMode) (hasAdapter : Bool)
    (policyRules : List ValidationRule) (m : Module) :
    validateResources rx condIterOrder detect mode hasAdapter policyRules (some m) =
      .ok ((collectResources m).map
        (validateResource rx condIterOrder detect mode hasAdapter policyRules)) ∧
    ((collectResources m).map
      (validateResource rx condIterOrder detect mode hasAdapter policyRules)).length =
      (collectResources m).length ∧
    (generateSummary ((collectResources m).map
      (validateResource rx condIterOrder detect mode hasAdapter
        policyRules))).totalResources = (collectResources m).length ∧
    (generateSummary ((collectResources m).map
      (validateResource rx condIterOrder detect mode hasAdapter policyRules))).reports =
      (collectResources m).map
        (validateResource rx condIterOrder detect mode hasAdapter policyRules) ∧
    ∀ rep ∈ (collectResources m).map
        (validateResource rx condIterOrder detect mode hasAdapter policyRules),
      rep.status = specStatus rep.ruleResults rep.driftStatus := by
  refine ⟨?_, List.length_map _ _, ?_, rfl, ?_⟩
  · simp [validateResources, foldl_append_singleton]
  · simp [generateSummary]
  · intro rep hrep
    obtain ⟨resource, hres, rfl⟩ := List.mem_map.mp hrep
    obtain ⟨hR, hS⟩ :=
      validateResource_spec rx condIterOrder detect mode hasAdapter policyRules resource
    rw [← hR] at hS
    exact hS

/-- A two-level module tree used to instantiate C9. -/
def sampleModule : Module :=
  .mk [{ address := "aws_s3_bucket.a", type := "aws_s3_bucket" }]
    [.mk [{ address := "module.child.aws_instance.b", type := "aws_instance" }] [] "module.child"]
    ""

/-- C9 witness: the total-resources count equality instantiated at a
concrete module tree. -/
theorem one_report_per_resource_witness :
    (generateSummary ((collectResources sampleModule).map
      (validateResource rxConst declaredOrder detectOk .validateExisting false
        []))).totalResources = (collectResources sampleModule).length :=
  (one_report_per_resource rxConst declaredOrder detectOk .validateExisting false
    [] sampleModule).2.2.1

/-- C10: whenever the expected value configured for encryption.enabled,
public_access.blocked, versioning.enabled, logging.enabled, backup.enabled
or network.private_subnet is not the boolean true (boolean false, a string
such as "true", a number, a list or a mapping), the checker passes
unconditionally for every resource with no detail appended: these checkers
enforce nothing unless the expected value is literally boolean true. -/
theorem nonbool_expected_passes (expected : Value) (res : AttrMap)
    (h : expected ≠ Value.bool true) :
    checkEncryptionEnabled expected res = (true, []) ∧
    checkPublicAccessBlocked expected res = (true, []) ∧
    checkVersioningEnabled expected res = (true, []) ∧
    checkLoggingEnabled expected res = (true, []) ∧
    checkBackupEnabled expected res = (true, []) ∧
    checkPrivateSubnet expected res = (true, []) := by
  cases expected with
  | bool b =>
    cases b with
    | false => exact ⟨rfl, rfl, rfl, rfl, rfl, rfl⟩
    | true => exact absurd rfl h
  | str s => exact ⟨rfl, rfl, rfl, rfl, rfl, rfl⟩
  | int n => exact ⟨rfl, rfl, rfl, rfl, rfl, rfl⟩
  | list vs => exact ⟨rfl, rfl, rfl, rfl, rfl, rfl⟩
  | map kvs => exact ⟨rfl, rfl, rfl, rfl, rfl, rfl⟩

/-- C10 witness: the string "true" (not the boolean) as expected value
passes the encryption checker even on a resource with encryption plainly
disabled. -/
theorem nonbool_expected_passes_witness :
    checkEncryptionEnabled (Value.str "true") [("encrypted", Value.bool false)] = (true, []) :=
  (nonbool_expected_passes (Value.str "true") [("encrypted", Value.bool false)]
    (by simp)).1

end Terraship
